import Mathlib

/-!
Verification of the XboxRomConverter install pipeline and its supporting
services, as a shallow embedding of the Python sources.

Modelling conventions
* Filesystem paths are lists of components (absolute, already resolved); path
  strings manipulated by the Python code (archive member names, file names,
  URL paths) are Lean `String`s processed by character-level helpers that
  mirror the exact CPython semantics of the string/`posixpath`/`pathlib`
  operations the source uses.
* Fallible Python functions that raise become functions into `Except`;
  filesystem and subprocess side effects are recorded as explicit operation
  traces so that theorems can speak about what was written, removed or run.
* Environment-dependent facts (which paths exist, free disk space, subprocess
  results, HTTP responses) are supplied as explicit function parameters.
-/

namespace RomTool

/-! ### Character-level string helpers (CPython semantics) -/

/-- Python `member_name.replace("\\", "/")`: with single-character pattern and
replacement this is a character-wise map. -/
def replaceBackslashes (s : String) : String :=
  String.mk (s.data.map (fun c => if c = '\\' then '/' else c))

/-- Python `str.split(sep)` for a single-character separator: splits on every
occurrence, keeping empty fields; `"".split(sep) == [""]`. -/
def splitOnCharAux (sep : Char) : List Char → List Char → List String
  | [], acc => [String.mk acc.reverse]
  | c :: cs, acc =>
    if c = sep then String.mk acc.reverse :: splitOnCharAux sep cs []
    else splitOnCharAux sep cs (c :: acc)

/-- Python `s.split(sep)` for a one-character `sep`. -/
def splitOnChar (sep : Char) (s : String) : List String :=
  splitOnCharAux sep s.data []

/-- Join components with "/" (the `sep.join(comps)` step of `posixpath.normpath`). -/
def joinWithSlash : List String → String
  | [] => ""
  | [x] => x
  | x :: xs => x ++ "/" ++ joinWithSlash xs

/-- Python `s.startswith("..")`. -/
def startsWithDotDot (s : String) : Bool :=
  s.data.take 2 = ['.', '.']

/-- `posixpath.isabs`: the path begins with a slash. -/
def isAbsPath (s : String) : Bool :=
  s.data.take 1 = ['/']

/-- Python `s.endswith(".")`. -/
def endsWithDot (s : String) : Bool :=
  s.data.getLast? = some '.'

/-- Python `s.lstrip('.')`. -/
def lstripDots (s : String) : String :=
  String.mk (s.data.dropWhile (fun c => c = '.'))

/-- ASCII lower-casing of one character, as CPython `str.lower` acts on ASCII. -/
def charLower (c : Char) : Char :=
  if 'A' ≤ c ∧ c ≤ 'Z' then Char.ofNat (c.toNat + 32) else c

/-- Python `s.lower()` (restricted to its ASCII behaviour). -/
def strLower (s : String) : String :=
  String.mk (s.data.map charLower)

/-- Python `s[:n]` (character slicing). -/
def strTake (n : Nat) (s : String) : String :=
  String.mk (s.data.take n)

/-- `pathlib.PurePosixPath(s).name`: the last non-empty slash-separated
component ("" when there is none).  Used by the download service to strip
directory components from a server-supplied filename. -/
def pathName (s : String) : String :=
  ((splitOnChar '/' s).filter (fun c => c ≠ "")).getLastD ""

/-! ### services/extraction_service.py -/

/-- `ARCHIVE_EXTENSIONS` from services/extraction_service.py. -/
def ARCHIVE_EXTENSIONS : List String :=
  [".zip", ".rar", ".7z", ".tar", ".gz", ".bz2", ".xz", ".001"]

/-- `pathlib.PurePath.suffixes` of a file name: empty for a name ending in a
dot; otherwise the dotted extensions after the first component of the
dot-stripped name. -/
def pySuffixes (name : String) : List String :=
  if endsWithDot name then []
  else ((splitOnChar '.' (lstripDots name)).drop 1).map (fun s => "." ++ s)

/-- `is_archive` from services/extraction_service.py: true when any dotted
suffix of the file name, lower-cased, is a recognised archive extension. -/
def is_archive (name : String) : Bool :=
  ((pySuffixes name).map strLower).any (fun s => ARCHIVE_EXTENSIONS.contains s)

/-- `posixpath.normpath`: collapse empty and `.` components, resolve `..`
components lexically, preserve leading slashes (one or two). -/
def normpath (p : String) : String :=
  if p = "" then "."
  else
    let initialSlashes : Nat :=
      if isAbsPath p then
        if p.data.take 2 = ['/', '/'] ∧ ¬ p.data.take 3 = ['/', '/', '/'] then 2 else 1
      else 0
    let comps := splitOnChar '/' p
    let newComps := comps.foldl
      (fun acc comp =>
        if comp = "" ∨ comp = "." then acc
        else if comp ≠ ".." ∨ (initialSlashes = 0 ∧ acc = []) ∨ acc.getLast? = some ".."
          then acc ++ [comp]
        else acc.dropLast)
      []
    let joined := String.mk (List.replicate initialSlashes '/') ++ joinWithSlash newComps
    if joined = "" then "." else joined

/-- `pathlib.Path.resolve` of `base / rel` for an already-resolved absolute
`base` and a component list `rel`: lexical normalisation (the model has no
symbolic links). -/
def resolveComponents (base : List String) (rel : List String) : List String :=
  rel.foldl
    (fun acc c =>
      if c = "" ∨ c = "." then acc
      else if c = ".." then acc.dropLast
      else acc ++ [c])
    base

/-- `_safe_member_path` from services/extraction_service.py: normalise the
member name, reject absolute results and results starting with "..", then
check that the resolved path stays below `dest` (`Path.relative_to`). -/
def safe_member_path (dest : List String) (memberName : String) : Option (List String) :=
  let clean := normpath (replaceBackslashes memberName)
  if isAbsPath clean ∨ startsWithDotDot clean then none
  else
    let resolved := resolveComponents dest (splitOnChar '/' clean)
    if List.isPrefixOf dest resolved then some resolved else none

/-- The member loop of `_extract_zip`: validate each member just before
extracting it; the first rejected member aborts with an error, leaving the
previously extracted members in place.  Returns the extracted member names
and whether the whole archive was extracted. -/
def extract_zip_go (dest : List String) : List String → List String → List String × Bool
  | [], written => (written, true)
  | m :: rest, written =>
    match safe_member_path dest m with
    | none => (written, false)
    | some _ => extract_zip_go dest rest (written ++ [m])

/-- `_extract_zip` from services/extraction_service.py, as a function of the
archive's member-name list. -/
def extract_zip (dest : List String) (members : List String) : List String × Bool :=
  extract_zip_go dest members []

/-! ### services/storage_service.py -/

/-- `DISK_SAFETY_BUFFER_BYTES` from services/storage_service.py (512 MiB). -/
def DISK_SAFETY_BUFFER_BYTES : Nat := 512 * 1024 * 1024

/-- The filesystem facts `check_disk_space` consults: which paths exist, and
what `shutil.disk_usage(p).free` reports (`none` models the `OSError` case). -/
structure DiskFs where
  pathPresent : List String → Bool
  freeBytes : List String → Option Nat

/-- The probe loop of `check_disk_space` on the reversed component list:
walk up (drop the last component) until an existing directory, or the root
(whose parent is itself), is reached. -/
def nearest_existing_rev (fs : DiskFs) : List String → List String
  | [] => []
  | c :: rest =>
    if fs.pathPresent ((c :: rest).reverse) then (c :: rest).reverse
    else nearest_existing_rev fs rest

/-- The probe loop of `check_disk_space`: walk up from `path` until an
existing directory (or the root, whose parent is itself) is reached. -/
def nearest_existing (fs : DiskFs) (path : List String) : List String :=
  nearest_existing_rev fs path.reverse

/-- Errors raised by services/storage_service.py. -/
inductive StorErr
  | insufficientSpace (requiredBytes availableBytes : Nat)
  | storageFailure (msg : String)
deriving DecidableEq

/-- `check_disk_space` from services/storage_service.py: stat the nearest
existing ancestor and fail when its free space is below the request plus the
safety buffer; the error carries the buffered requirement and the free
amount. -/
def check_disk_space (fs : DiskFs) (path : List String) (requiredBytes : Nat) :
    Except StorErr Unit :=
  let probe := nearest_existing fs path
  match fs.freeBytes probe with
  | none => .error (.storageFailure "Cannot check disk space")
  | some free =>
    let needed := requiredBytes + DISK_SAFETY_BUFFER_BYTES
    if free < needed then .error (.insufficientSpace needed free) else .ok ()

/-- Filesystem operations performed by `install` (recorded as a trace). -/
inductive FsOp
  | mkdirOp (p : List String)
  | rmtreeOp (p : List String)
  | unlinkOp (p : List String)
  | moveOp (src dst : List String)
deriving DecidableEq

/-- The destination-side facts `install` consults (`dst.exists()` and
`dst.is_dir()`), evaluated on the pre-state. -/
structure DestFs where
  pathPresent : List String → Bool
  pathIsDir : List String → Bool

/-- The per-child body of the multi-entry branch of `install`: remove a
pre-existing entry at the move target (rmtree for a directory, unlink for a
file) and then move the child in. -/
def move_children_ops (fs : DestFs) (sourceDir target : List String) :
    List (String × Bool) → List FsOp
  | [] => []
  | ch :: rest =>
    (if fs.pathPresent (target ++ [ch.1]) then
       (if fs.pathIsDir (target ++ [ch.1]) then [FsOp.rmtreeOp (target ++ [ch.1])]
        else [FsOp.unlinkOp (target ++ [ch.1])])
     else [])
    ++ [FsOp.moveOp (sourceDir ++ [ch.1]) (target ++ [ch.1])]
    ++ move_children_ops fs sourceDir target rest

/-- `install` from services/storage_service.py.  `children` is
`list(source_dir.iterdir())` as (name, is_dir) pairs.  Returns the trace of
filesystem operations and the installed path (or the `StorageError`). -/
def install (fs : DestFs) (sourceDir destDir : List String)
    (children : List (String × Bool)) : List FsOp × Except StorErr (List String) :=
  match children with
  | [] =>
    ([FsOp.mkdirOp destDir],
     .error (.storageFailure "Conversion produced no output"))
  | c :: cs =>
    if cs.isEmpty && c.2 then
      let target := destDir ++ [c.1]
      ([FsOp.mkdirOp destDir]
         ++ (if fs.pathPresent target then [FsOp.rmtreeOp target] else [])
         ++ [FsOp.moveOp (sourceDir ++ [c.1]) target],
       .ok target)
    else
      let target := destDir ++ [sourceDir.getLastD ""]
      ([FsOp.mkdirOp destDir, FsOp.mkdirOp target]
         ++ move_children_ops fs sourceDir target (c :: cs),
       .ok target)

/-! ### services/conversion_service.py -/

/-- Outcome of `subprocess.run` for one invocation. -/
inductive SubprocOutcome
  | completed (exitCode : Int) (stdout stderr : String)
  | fileNotFound
  | timedOut
  | osFailure (msg : String)

/-- The environment of the conversion service: the `ROMTOOL_BASE` base path,
which bundled binaries exist under `base/bin/`, and what running a given
command returns. -/
structure ConvEnv where
  basePath : String
  binPresent : String → Bool
  runOutcome : List String → SubprocOutcome

/-- `ConversionError` reasons raised by services/conversion_service.py. -/
inductive ConvErr
  | missingBinary (candidate : String)
  | launchFailure (label : String)
  | timeoutFailure (label : String)
  | osLaunchFailure (label : String) (msg : String)
  | nonZeroExit (label : String) (exitCode : Int) (stdoutSnippet stderrSnippet : String)
  | unknownFormat (fmt : String)
deriving DecidableEq

/-- Observable actions of `convert_iso` (directory creation and subprocess
invocations). -/
inductive ConvOp
  | mkdirOp (dir : String)
  | runSubprocessOp (cmd : List String)
deriving DecidableEq

/-- `_bin_path`: the candidate path `BASE / "bin" / name`. -/
def bin_path_candidate (env : ConvEnv) (nm : String) : String :=
  env.basePath ++ "/bin/" ++ nm

/-- `_run_subprocess` from services/conversion_service.py: classify the
subprocess outcome, truncating stdout/stderr to 500 characters on a non-zero
exit code. -/
def run_subprocess_model (env : ConvEnv) (cmd : List String) (label : String) :
    Except ConvErr Unit :=
  match env.runOutcome cmd with
  | .completed code sout serr =>
    if code ≠ 0 then .error (.nonZeroExit label code (strTake 500 sout) (strTake 500 serr))
    else .ok ()
  | .fileNotFound => .error (.launchFailure label)
  | .timedOut => .error (.timeoutFailure label)
  | .osFailure msg => .error (.osLaunchFailure label msg)

/-- `_convert_xex`: resolve exiso.exe, run `exiso -d <outputDir> <isoPath>`. -/
def convert_xex (env : ConvEnv) (isoPath outputDir : String) :
    List ConvOp × Except ConvErr String :=
  if env.binPresent "exiso.exe" then
    let exiso := bin_path_candidate env "exiso.exe"
    let cmd := [exiso, "-d", outputDir, isoPath]
    match run_subprocess_model env cmd "exiso.exe" with
    | .error e => ([ConvOp.runSubprocessOp cmd], .error e)
    | .ok _ => ([ConvOp.runSubprocessOp cmd], .ok outputDir)
  else ([], .error (.missingBinary (bin_path_candidate env "exiso.exe")))

/-- `_convert_god`: resolve iso2god.exe, run
`iso2god <isoPath> <outputDir> --trim`. -/
def convert_god (env : ConvEnv) (isoPath outputDir : String) :
    List ConvOp × Except ConvErr String :=
  if env.binPresent "iso2god.exe" then
    let iso2god := bin_path_candidate env "iso2god.exe"
    let cmd := [iso2god, isoPath, outputDir, "--trim"]
    match run_subprocess_model env cmd "iso2god.exe" with
    | .error e => ([ConvOp.runSubprocessOp cmd], .error e)
    | .ok _ => ([ConvOp.runSubprocessOp cmd], .ok outputDir)
  else ([], .error (.missingBinary (bin_path_candidate env "iso2god.exe")))

/-- `convert_iso` from services/conversion_service.py, with the format as the
runtime string it is in Python: make the output directory, then dispatch on
the format, rejecting anything other than "XEX" and "GOD". -/
def convert_iso (env : ConvEnv) (isoPath outputDir fmt : String) :
    List ConvOp × Except ConvErr String :=
  let mk := [ConvOp.mkdirOp outputDir]
  if fmt = "XEX" then
    let r := convert_xex env isoPath outputDir
    (mk ++ r.1, r.2)
  else if fmt = "GOD" then
    let r := convert_god env isoPath outputDir
    (mk ++ r.1, r.2)
  else (mk, .error (.unknownFormat fmt))

/-! ### services/download_service.py -/

/-- `MAX_RETRIES` from services/download_service.py. -/
def MAX_RETRIES : Nat := 3

/-- The `DownloadError` reasons one attempt can raise.  All of them are the
same Python exception class `DownloadError`; the constructors record which
raise-site produced it.  The final error raised after the retry loop is
modelled as the `Except` error payload `Option DlError`, carrying the last
underlying error. -/
inductive DlError
  | cancelled
  | httpStatus (code : Nat)
  | network (msg : String)
  | ioFailure (msg : String)
deriving DecidableEq

/-- `_filename_from_url`: the last `/`-separated segment of the URL's path,
or "download.bin" when that segment is empty (percent-decoding is omitted:
the model's names contain no escapes). -/
def filename_from_url (urlPath : String) : String :=
  let nm := (splitOnChar '/' urlPath).getLastD ""
  if nm = "" then "download.bin" else nm

/-- One attempt of the chunk loop of `_attempt_download`: each iteration
observes the cancellation flag, skips empty chunks, and otherwise writes the
whole chunk.  Returns the chunks written so far and the error, if any. -/
def attempt_chunks_go : List (Bool × List Nat) → List (List Nat) →
    List (List Nat) × Option DlError
  | [], written => (written, none)
  | (c, chunk) :: rest, written =>
    if c then (written, some .cancelled)
    else if chunk.isEmpty then attempt_chunks_go rest written
    else attempt_chunks_go rest (written ++ [chunk])

/-- The response script for one download attempt: an optional failure before
the output file is opened (connection error or non-2xx status), the body
iterations (cancellation flag observed at that iteration, chunk bytes), and
an optional failure after the body (mid-stream network or I/O error). -/
structure AttemptScript where
  preOpenFailure : Option DlError
  iters : List (Bool × List Nat)
  streamFailure : Option DlError

/-- `_attempt_download` from services/download_service.py: whether the output
file was opened (and hence exists on disk), the whole chunks written to it,
and the outcome. -/
def attempt_download (a : AttemptScript) :
    Bool × List (List Nat) × Except DlError Unit :=
  match a.preOpenFailure with
  | some e => (false, [], .error e)
  | none =>
    match attempt_chunks_go a.iters [] with
    | (chunks, some e) => (true, chunks, .error e)
    | (chunks, none) =>
      match a.streamFailure with
      | some e => (true, chunks, .error e)
      | none => (true, chunks, .ok ())

/-- The naming environment of one `download_file` call. `headerFilename` is
what `_filename_from_headers` returns (None when absent or empty). -/
structure DlEnv where
  filenameOverride : Option String
  headerFilename : Option String
  urlPath : String

/-- The filename the attempt actually writes to:
`override or header or from_url`, then `Path(filename).name`. -/
def written_name (env : DlEnv) : String :=
  pathName (env.filenameOverride.getD
    (env.headerFilename.getD (filename_from_url env.urlPath)))

/-- The filename `_cleanup_partial` is asked to delete:
`filename_override or _filename_from_url(url)` (the header name is NOT
consulted here). -/
def cleanup_name (env : DlEnv) : String :=
  env.filenameOverride.getD (filename_from_url env.urlPath)

/-- Add a file name to the destination-directory contents. -/
def add_file (files : List String) (nm : String) : List String :=
  if nm ∈ files then files else files ++ [nm]

/-- `_cleanup_partial`: unlink the named file if present (never raises). -/
def remove_file (files : List String) (nm : String) : List String :=
  files.filter (fun x => x ≠ nm)

deriving instance DecidableEq for Except

/-- Result of one `download_file` call: attempts made, number of
partial-file cleanups performed, the final contents of the destination
directory, and the returned path (or the raised error). -/
structure DlRun where
  attemptsMade : Nat
  cleanups : Nat
  files : List String
  result : Except (Option DlError) String
deriving DecidableEq

/-- The retry loop of `download_file` over `range(1, MAX_RETRIES + 1)`:
run the attempt; on success return the path; on a `DownloadError` remember it
as the last error and, when more attempts remain, delete the partial file
(at `cleanup_name`) before retrying.  After the loop, raise the exhausted
error carrying the last error. -/
def download_loop (env : DlEnv) (attempts : Nat → AttemptScript) :
    List Nat → List String → Nat → Nat → Option DlError → DlRun
  | [], files, made, cleanups, last =>
    ⟨made, cleanups, files, .error last⟩
  | i :: rest, files, made, cleanups, _last =>
    match attempt_download (attempts i) with
    | (wrote, _, .ok _) =>
      let files := if wrote then add_file files (written_name env) else files
      ⟨made + 1, cleanups, files, .ok (written_name env)⟩
    | (wrote, _, .error e) =>
      let files := if wrote then add_file files (written_name env) else files
      if i < MAX_RETRIES then
        download_loop env attempts rest (remove_file files (cleanup_name env))
          (made + 1) (cleanups + 1) (some e)
      else
        download_loop env attempts rest files (made + 1) cleanups (some e)

/-- `download_file` from services/download_service.py, starting from an empty
destination directory. -/
def download_file (env : DlEnv) (attempts : Nat → AttemptScript) : DlRun :=
  download_loop env attempts [1, 2, 3] [] 0 0 none

/-! ### workers/install_worker.py -/

/-- `FALLBACK_SIZE_ESTIMATE` from workers/install_worker.py (9 GiB). -/
def FALLBACK_SIZE_ESTIMATE : Nat := 9 * 1024 ^ 3

/-- The observable stage events of one `_run_pipeline` run, recorded when the
stage is entered (the download event marks the network request being
issued). -/
inductive Ev
  | tempCreate
  | spaceCheck
  | download
  | extractStage
  | convert
  | installStage
  | cleanup
  | emitFinished
deriving DecidableEq

/-- The classified errors `InstallWorker.run` can catch.  Each constructor
corresponds to one exception class of services/exceptions.py. -/
inductive PError
  | insufficientDiskSpace (required available : Nat)
  | downloadFailure (msg : String)
  | extractionFailure (msg : String)
  | conversionFailure (e : ConvErr)
  | storageFailure (msg : String)
deriving DecidableEq

/-- The service outcomes one pipeline run observes.  The disk-space check is
the real `check_disk_space` over `fs`; the download, extraction, conversion
and install steps are given by their raised error or returned value. -/
structure WorkerEnv where
  fs : DiskFs
  installDir : List String
  downloadOutcome : Except String String
  extractOutcome : Except String Unit
  findIso : Option String
  convertOutcome : Except ConvErr String
  installOutcome : Except String (List String)

/-- Steps 5-8 of `_run_pipeline`: convert, install, cleanup, emit. -/
def pipeline_tail (env : WorkerEnv) (tr : List Ev) :
    List Ev × Except PError (List String) :=
  let tr := tr ++ [Ev.convert]
  match env.convertOutcome with
  | .error e => (tr, .error (.conversionFailure e))
  | .ok _ =>
    let tr := tr ++ [Ev.installStage]
    match env.installOutcome with
    | .error m => (tr, .error (.storageFailure m))
    | .ok p => (tr ++ [Ev.cleanup, Ev.emitFinished], .ok p)

/-- `InstallWorker._run_pipeline`: temp dir, disk-space check with the
fallback size estimate, download, conditional extraction keyed on
`is_archive` of the downloaded file name, conversion, install, cleanup. -/
def run_pipeline (env : WorkerEnv) : List Ev × Except PError (List String) :=
  let tr := [Ev.tempCreate, Ev.spaceCheck]
  match check_disk_space env.fs env.installDir FALLBACK_SIZE_ESTIMATE with
  | .error (StorErr.insufficientSpace r a) => (tr, .error (.insufficientDiskSpace r a))
  | .error (StorErr.storageFailure m) => (tr, .error (.storageFailure m))
  | .ok _ =>
    let tr := tr ++ [Ev.download]
    match env.downloadOutcome with
    | .error m => (tr, .error (.downloadFailure m))
    | .ok nm =>
      cond (is_archive nm)
        (let tr := tr ++ [Ev.extractStage]
         match env.extractOutcome with
         | .error m => (tr, .error (.extractionFailure m))
         | .ok _ =>
           match env.findIso with
           | none =>
             (tr, .error (.extractionFailure
               "Extraction succeeded but no .iso file was found in the archive."))
           | some _ => pipeline_tail env tr)
        (pipeline_tail env tr)

/-- The user-facing notifications `InstallWorker.run` emits. -/
inductive Emit
  | finishedEmit (path : List String)
  | errorEmit (category : String)
deriving DecidableEq

/-- The message category of each except-branch of `InstallWorker.run`. -/
def classify : PError → String
  | .insufficientDiskSpace _ _ => "Not enough disk space."
  | .downloadFailure _ => "Download failed"
  | .extractionFailure _ => "Extraction failed"
  | .conversionFailure _ => "Conversion failed"
  | .storageFailure _ => "Storage error"

/-- `InstallWorker.run`: run the pipeline and, on failure, emit exactly one
classified error message. -/
def worker_run (env : WorkerEnv) : List Ev × List Emit :=
  match run_pipeline env with
  | (tr, .ok p) => (tr, [Emit.finishedEmit p])
  | (tr, .error e) => (tr, [Emit.errorEmit (classify e)])

/-- The canonical stage order of one pipeline run. -/
def stageOrder : List Ev :=
  [Ev.tempCreate, Ev.spaceCheck, Ev.download, Ev.extractStage, Ev.convert,
   Ev.installStage, Ev.cleanup, Ev.emitFinished]

/-! ### Supporting lemmas -/

/-- A member the safe-path check accepts resolves to a path below `dest`. -/
theorem safe_member_path_some_below {dest : List String} {m : String}
    {p : List String} (h : safe_member_path dest m = some p) :
    List.isPrefixOf dest p = true := by
  simp only [safe_member_path] at h
  split at h
  · cases h
  · split at h
    · cases h; assumption
    · cases h

/-- The extraction loop aborts once it meets a rejected member, and every
member it has extracted passed the safe-path check. -/
theorem extract_zip_go_reject {dest : List String} {m : String}
    (hm : safe_member_path dest m = none) :
    ∀ (rest written : List String),
      (∀ w ∈ written, (safe_member_path dest w).isSome) →
      m ∈ rest →
      (extract_zip_go dest rest written).2 = false ∧
      ∀ w ∈ (extract_zip_go dest rest written).1,
        (safe_member_path dest w).isSome := by
  intro rest
  induction rest with
  | nil => intro written _ hmem; cases hmem
  | cons r rs ih =>
    intro written hw hmem
    cases h : safe_member_path dest r with
    | none =>
      refine ⟨by simp [extract_zip_go, h], ?_⟩
      intro w hw'
      exact hw w (by simpa [extract_zip_go, h] using hw')
    | some p =>
      have hmrs : m ∈ rs := by
        rcases List.mem_cons.mp hmem with h1 | h1
        · subst h1; rw [hm] at h; cases h
        · exact h1
      have hw' : ∀ w ∈ written ++ [r], (safe_member_path dest w).isSome := by
        intro w hw''
        rcases List.mem_append.mp hw'' with h1 | h1
        · exact hw w h1
        · simp only [List.mem_singleton] at h1; subst h1; simp [h]
      simpa [extract_zip_go, h] using ih (written ++ [r]) hw' hmrs

/-! ### Claims -/

/-- C1, counterexample: the archive member "a/../b" contains a ".." segment,
yet `_safe_member_path` returns a resolved path (not None) for it, and
`_extract_zip` extracts the archive instead of aborting. -/
theorem c1_counterexample :
    (".." ∈ splitOnChar '/' (replaceBackslashes "a/../b")) ∧
    safe_member_path ["tmp"] "a/../b" = some ["tmp", "b"] ∧
    extract_zip ["tmp"] ["a/../b"] = (["a/../b"], true) := by decide

/-- C1 (amended): for every archive member whose cleaned path (backslashes
normalised to slashes, then lexically normalised) is absolute or starts with
"..", `_safe_member_path` returns None and the ZIP extraction loop aborts
the whole extraction; that member is never extracted, and every member that
was extracted before the abort passed the safe-path check and resolves below
the destination directory. -/
theorem c1_extract_rejects_escaping_member
    (dest members : List String) (m : String) (hmem : m ∈ members)
    (hesc : isAbsPath (normpath (replaceBackslashes m)) = true ∨
            startsWithDotDot (normpath (replaceBackslashes m)) = true) :
    safe_member_path dest m = none ∧
    (extract_zip dest members).2 = false ∧
    m ∉ (extract_zip dest members).1 ∧
    ∀ w ∈ (extract_zip dest members).1, ∃ p,
      safe_member_path dest w = some p ∧ List.isPrefixOf dest p = true := by
  have hnone : safe_member_path dest m = none := by
    unfold safe_member_path
    rcases hesc with h | h <;> simp [h]
  have hgo := extract_zip_go_reject hnone members [] (by simp) hmem
  refine ⟨hnone, hgo.1, ?_, ?_⟩
  · intro hmw
    have := hgo.2 m hmw
    rw [hnone] at this
    cases this
  · intro w hw
    have hsome := hgo.2 w hw
    rcases Option.isSome_iff_exists.mp hsome with ⟨p, hp⟩
    exact ⟨p, hp, safe_member_path_some_below hp⟩

/-- C1 witness: a concrete archive with one safe member followed by a
backslash-traversal member is rejected; only the safe member was extracted. -/
theorem c1_extract_rejects_escaping_member_witness :
    safe_member_path ["out"] "..\\evil" = none ∧
    (extract_zip ["out"] ["good.txt", "..\\evil"]).2 = false ∧
    "..\\evil" ∉ (extract_zip ["out"] ["good.txt", "..\\evil"]).1 ∧
    (extract_zip ["out"] ["good.txt", "..\\evil"]).1 = ["good.txt"] := by
  have h := c1_extract_rejects_escaping_member ["out"] ["good.txt", "..\\evil"]
    "..\\evil" (by decide) (Or.inr (by decide))
  exact ⟨h.1, h.2.1, h.2.2.1, by decide⟩

/-- C9: `is_archive` returns true exactly when some dotted suffix of the
file name, lower-cased, is in the fixed archive-extension set; in
particular "game.7z.iso", whose final extension ".iso" is not an archive
extension but whose inner suffix ".7z" is, is classified as an archive, and
a pipeline run that downloads such a file enters the extraction stage. -/
theorem c9_is_archive_any_suffix :
    (∀ nm : String,
      is_archive nm = true ↔ ∃ s ∈ pySuffixes nm, strLower s ∈ ARCHIVE_EXTENSIONS) ∧
    pySuffixes "game.7z.iso" = [".7z", ".iso"] ∧
    (".iso" ∈ ARCHIVE_EXTENSIONS) = False ∧
    is_archive "game.7z.iso" = true ∧
    Ev.extractStage ∈ (run_pipeline
      ⟨⟨fun _ => true, fun _ => some (FALLBACK_SIZE_ESTIMATE + DISK_SAFETY_BUFFER_BYTES)⟩,
       ["games"], .ok "game.7z.iso", .ok (), some "disc.iso", .ok "out",
       .ok ["games", "G"]⟩).1 := by
  refine ⟨?_, by decide, by decide, by decide, by decide⟩
  intro nm
  simp [is_archive, List.any_eq_true, List.mem_map]

/-- C2: `check_disk_space` raises the insufficient-space error exactly when
the free space of the nearest existing ancestor is strictly below the
request plus the 512 MiB safety buffer; the boundary case passes, and the
raised error carries the buffered requirement and the available amount. -/
theorem c2_check_disk_space_iff (fs : DiskFs) (path : List String) (r free : Nat)
    (hfree : fs.freeBytes (nearest_existing fs path) = some free) :
    ((∃ a b, check_disk_space fs path r = .error (.insufficientSpace a b)) ↔
        free < r + DISK_SAFETY_BUFFER_BYTES) ∧
    (free < r + DISK_SAFETY_BUFFER_BYTES →
        check_disk_space fs path r =
          .error (.insufficientSpace (r + DISK_SAFETY_BUFFER_BYTES) free)) ∧
    (r + DISK_SAFETY_BUFFER_BYTES ≤ free → check_disk_space fs path r = .ok ()) := by
  simp only [check_disk_space]
  rw [hfree]
  by_cases h : free < r + DISK_SAFETY_BUFFER_BYTES
  · simp [h]
  · simp [h, Nat.not_lt.mp h]

/-- C2 witness: with exactly `required + buffer` bytes free, the boundary
request passes and one more byte of demand raises the structured error. -/
theorem c2_check_disk_space_iff_witness :
    check_disk_space ⟨fun _ => true, fun _ => some (7 + DISK_SAFETY_BUFFER_BYTES)⟩ ["d"] 7 = .ok () ∧
    check_disk_space ⟨fun _ => true, fun _ => some (7 + DISK_SAFETY_BUFFER_BYTES)⟩ ["d"] 8 =
      .error (.insufficientSpace (8 + DISK_SAFETY_BUFFER_BYTES) (7 + DISK_SAFETY_BUFFER_BYTES)) := by
  have h7 := c2_check_disk_space_iff
    ⟨fun _ => true, fun _ => some (7 + DISK_SAFETY_BUFFER_BYTES)⟩ ["d"] 7
    (7 + DISK_SAFETY_BUFFER_BYTES) rfl
  have h8 := c2_check_disk_space_iff
    ⟨fun _ => true, fun _ => some (7 + DISK_SAFETY_BUFFER_BYTES)⟩ ["d"] 8
    (7 + DISK_SAFETY_BUFFER_BYTES) rfl
  exact ⟨h7.2.2 (Nat.le_refl _), h8.2.1 (by simp)⟩

/-- Each child's overwrite-then-move segment occurs, in order, inside the
operation list of the multi-entry install loop. -/
theorem move_children_ops_seg (fs : DestFs) (sourceDir target : List String)
    (ch : String × Bool) :
    ∀ {l : List (String × Bool)}, ch ∈ l →
    List.Sublist
      ((if fs.pathPresent (target ++ [ch.1]) then
          (if fs.pathIsDir (target ++ [ch.1]) then [FsOp.rmtreeOp (target ++ [ch.1])]
           else [FsOp.unlinkOp (target ++ [ch.1])])
        else [])
       ++ [FsOp.moveOp (sourceDir ++ [ch.1]) (target ++ [ch.1])])
      (move_children_ops fs sourceDir target l) := by
  intro l hmem
  induction l with
  | nil => cases hmem
  | cons c cs ih =>
    rw [move_children_ops]
    rcases List.mem_cons.mp hmem with h | h
    · subst h
      exact List.sublist_append_left _ _
    · exact (ih h).trans (List.sublist_append_right _ _)

/-- C6: for a non-empty source, `install` moves a single directory entry
directly to `dest/<entryName>`; otherwise it creates `dest/<sourceName>`
and moves every entry into it, and for each entry any pre-existing entry at
the move target is removed (rmtree for a directory, unlink for a file)
before that entry's move. -/
theorem c6_install_layout (fs : DestFs) (sourceDir destDir : List String)
    (children : List (String × Bool)) (hne : children ≠ []) :
    (∀ nm, children = [(nm, true)] →
      (install fs sourceDir destDir children).2 = .ok (destDir ++ [nm]) ∧
      List.Sublist
        ((if fs.pathPresent (destDir ++ [nm]) then [FsOp.rmtreeOp (destDir ++ [nm])] else [])
          ++ [FsOp.moveOp (sourceDir ++ [nm]) (destDir ++ [nm])])
        (install fs sourceDir destDir children).1) ∧
    ((∀ nm, children ≠ [(nm, true)]) →
      (install fs sourceDir destDir children).2 = .ok (destDir ++ [sourceDir.getLastD ""]) ∧
      FsOp.mkdirOp (destDir ++ [sourceDir.getLastD ""]) ∈ (install fs sourceDir destDir children).1 ∧
      ∀ ch ∈ children,
        List.Sublist
          ((if fs.pathPresent (destDir ++ [sourceDir.getLastD ""] ++ [ch.1]) then
              (if fs.pathIsDir (destDir ++ [sourceDir.getLastD ""] ++ [ch.1]) then
                 [FsOp.rmtreeOp (destDir ++ [sourceDir.getLastD ""] ++ [ch.1])]
               else [FsOp.unlinkOp (destDir ++ [sourceDir.getLastD ""] ++ [ch.1])])
            else [])
           ++ [FsOp.moveOp (sourceDir ++ [ch.1]) (destDir ++ [sourceDir.getLastD ""] ++ [ch.1])])
          (install fs sourceDir destDir children).1) := by
  rcases children with _ | ⟨⟨n0, b0⟩, cs⟩
  · cases hne rfl
  constructor
  · intro nm heq
    simp only [List.cons.injEq, Prod.mk.injEq] at heq
    obtain ⟨⟨h1, h2⟩, h3⟩ := heq
    subst h1; subst h2; subst h3
    refine ⟨by simp [install], ?_⟩
    simp only [install, List.isEmpty_nil, Bool.true_and, if_true]
    rw [List.append_assoc]
    exact List.sublist_append_right _ _
  · intro hns
    have hcond : (cs.isEmpty && b0) = false := by
      rcases cs with _ | ⟨c1, cs1⟩
      · cases b0
        · simp
        · exact absurd rfl (hns n0)
      · simp
    simp only [install, hcond, Bool.false_eq_true, if_false]
    refine ⟨by trivial, by simp, ?_⟩
    intro ch hch
    exact (move_children_ops_seg fs sourceDir (destDir ++ [sourceDir.getLastD ""]) ch hch).trans
      (List.sublist_append_right _ _)

/-- C6 witness: a source with a single directory entry "Foo" installs as
dest/Foo (after removing the pre-existing dest/Foo), and a source "conv"
with two file entries installs them under dest/conv. -/
theorem c6_install_layout_witness :
    (install ⟨fun p => p = ["dest", "Foo"], fun _ => true⟩ ["tmp", "conv"] ["dest"]
        [("Foo", true)]).2 = .ok ["dest", "Foo"] ∧
    List.Sublist [FsOp.rmtreeOp ["dest", "Foo"], FsOp.moveOp ["tmp", "conv", "Foo"] ["dest", "Foo"]]
      (install ⟨fun p => p = ["dest", "Foo"], fun _ => true⟩ ["tmp", "conv"] ["dest"]
        [("Foo", true)]).1 ∧
    (install ⟨fun _ => false, fun _ => false⟩ ["tmp", "conv"] ["dest"]
        [("a.bin", false), ("b.bin", false)]).2 = .ok ["dest", "conv"] ∧
    FsOp.moveOp ["tmp", "conv", "b.bin"] ["dest", "conv", "b.bin"] ∈
      (install ⟨fun _ => false, fun _ => false⟩ ["tmp", "conv"] ["dest"]
        [("a.bin", false), ("b.bin", false)]).1 := by
  have h1 := (c6_install_layout ⟨fun p => p = ["dest", "Foo"], fun _ => true⟩
    ["tmp", "conv"] ["dest"] [("Foo", true)] (by simp)).1 "Foo" rfl
  have h2 := (c6_install_layout ⟨fun _ => false, fun _ => false⟩
    ["tmp", "conv"] ["dest"] [("a.bin", false), ("b.bin", false)] (by simp)).2
    (by intro nm h; cases h)
  refine ⟨h1.1, by simpa using h1.2, h2.1, ?_⟩
  have h3 := h2.2.2 ("b.bin", false) (by simp)
  exact h3.subset (by simp)

/-- C7: `convert_iso` with any format other than "XEX" and "GOD" fails with
the unknown-format `ConversionError` and invokes no subprocess. -/
theorem c7_convert_unknown_format (env : ConvEnv) (isoPath outputDir fmt : String)
    (h1 : fmt ≠ "XEX") (h2 : fmt ≠ "GOD") :
    (convert_iso env isoPath outputDir fmt).2 = .error (.unknownFormat fmt) ∧
    ∀ cmd, ConvOp.runSubprocessOp cmd ∉ (convert_iso env isoPath outputDir fmt).1 := by
  simp [convert_iso, h1, h2]

/-- C7 witness: format "ISO" is rejected without any subprocess call even
when both binaries exist and would succeed. -/
theorem c7_convert_unknown_format_witness :
    (convert_iso ⟨"/base", fun _ => true, fun _ => .completed 0 "" ""⟩
        "/t/a.iso" "/t/out" "ISO").2 = .error (.unknownFormat "ISO") ∧
    ∀ cmd, ConvOp.runSubprocessOp cmd ∉
      (convert_iso ⟨"/base", fun _ => true, fun _ => .completed 0 "" ""⟩
        "/t/a.iso" "/t/out" "ISO").1 :=
  c7_convert_unknown_format _ "/t/a.iso" "/t/out" "ISO" (by decide) (by decide)

/-- C10: `install` on an empty source directory raises a `StorageError` and
moves nothing, but the destination directory has already been created
(before the emptiness check), so it exists after the failure. -/
theorem c10_install_empty_source (fs : DestFs) (sourceDir destDir : List String) :
    (install fs sourceDir destDir []).1 = [FsOp.mkdirOp destDir] ∧
    (∃ msg, (install fs sourceDir destDir []).2 = .error (.storageFailure msg)) ∧
    FsOp.mkdirOp destDir ∈ (install fs sourceDir destDir []).1 ∧
    ∀ src dst, FsOp.moveOp src dst ∉ (install fs sourceDir destDir []).1 := by
  refine ⟨rfl, ⟨_, rfl⟩, by simp [install], ?_⟩
  intro src dst
  simp [install]

/-- If some iteration of the chunk loop observes the cancellation flag set,
the loop ends with the cancellation error, and everything written is either
a previously written chunk or a whole non-empty input chunk. -/
theorem attempt_chunks_go_cancel :
    ∀ (iters : List (Bool × List Nat)) (written : List (List Nat)),
      (∃ p ∈ iters, p.1 = true) →
      (attempt_chunks_go iters written).2 = some .cancelled ∧
      ∀ w ∈ (attempt_chunks_go iters written).1,
        w ∈ written ∨ ∃ p ∈ iters, p.1 = false ∧ p.2 = w := by
  intro iters
  induction iters with
  | nil =>
    intro written hc
    rcases hc with ⟨p, hp, _⟩
    cases hp
  | cons it rest ih =>
    intro written hc
    obtain ⟨c, chunk⟩ := it
    by_cases hcflag : c = true
    · subst hcflag
      refine ⟨by simp [attempt_chunks_go], ?_⟩
      intro w hw
      exact Or.inl (by simpa [attempt_chunks_go] using hw)
    · have hcb : c = false := by simpa using hcflag
      subst hcb
      have hc' : ∃ p ∈ rest, p.1 = true := by
        rcases hc with ⟨p, hp, hpt⟩
        rcases List.mem_cons.mp hp with h | h
        · subst h; cases hpt
        · exact ⟨p, h, hpt⟩
      by_cases hemp : chunk.isEmpty = true
      · have h := ih written hc'
        refine ⟨by simpa [attempt_chunks_go, hemp] using h.1, ?_⟩
        intro w hw
        rcases h.2 w (by simpa [attempt_chunks_go, hemp] using hw) with h1 | ⟨p, hp, hpp⟩
        · exact Or.inl h1
        · exact Or.inr ⟨p, List.mem_cons_of_mem _ hp, hpp⟩
      · have h := ih (written ++ [chunk]) hc'
        refine ⟨by simpa [attempt_chunks_go, hemp] using h.1, ?_⟩
        intro w hw
        rcases h.2 w (by simpa [attempt_chunks_go, hemp] using hw) with h1 | ⟨p, hp, hpp⟩
        · rcases List.mem_append.mp h1 with h2 | h2
          · exact Or.inl h2
          · simp only [List.mem_singleton] at h2
            subst h2
            exact Or.inr ⟨(false, w), List.mem_cons_self _ _, rfl, rfl⟩
        · exact Or.inr ⟨p, List.mem_cons_of_mem _ hp, hpp⟩

/-- C4, counterexample: a download attempt that observes the cancellation
signal raises a `DownloadError`, but `download_file` treats it as a
recoverable failure and retries: three attempts are made in total, not one. -/
theorem c4_counterexample :
    (attempt_download ⟨none, [(true, [7])], none⟩).2.2 = .error .cancelled ∧
    (download_file ⟨none, none, "files/game.iso"⟩
        (fun _ => ⟨none, [(true, [7])], none⟩)).attemptsMade = 3 ∧
    ¬ (download_file ⟨none, none, "files/game.iso"⟩
        (fun _ => ⟨none, [(true, [7])], none⟩)).attemptsMade = 1 := by decide

/-- C4 (amended): when the cancellation signal is observed set between chunk
writes, the attempt aborts with the cancellation `DownloadError` before the
offending chunk is written, and no chunk write is half-applied (everything
written is a whole input chunk); however the cancellation is an ordinary
recoverable `DownloadError`, so when every attempt observes it the retry
loop makes all three attempts, performs the two inter-attempt cleanups, and
finally raises the exhausted failure carrying the cancellation as the last
error. -/
theorem c4_cancellation_aborts_attempt_but_is_retried
    (iters : List (Bool × List Nat)) (sf : Option DlError) (env : DlEnv)
    (hc : ∃ p ∈ iters, p.1 = true) :
    (attempt_download ⟨none, iters, sf⟩).2.2 = .error .cancelled ∧
    (∀ w ∈ (attempt_download ⟨none, iters, sf⟩).2.1,
        ∃ p ∈ iters, p.1 = false ∧ p.2 = w) ∧
    (download_file env (fun _ => ⟨none, iters, sf⟩)).attemptsMade = 3 ∧
    (download_file env (fun _ => ⟨none, iters, sf⟩)).cleanups = 2 ∧
    (download_file env (fun _ => ⟨none, iters, sf⟩)).result = .error (some .cancelled) := by
  have hgo := attempt_chunks_go_cancel iters [] hc
  rcases hpair : attempt_chunks_go iters [] with ⟨chunks, res⟩
  rw [hpair] at hgo
  have hres : res = some .cancelled := hgo.1
  subst hres
  have hatt : attempt_download ⟨none, iters, sf⟩ = (true, chunks, .error .cancelled) := by
    simp [attempt_download, hpair]
  refine ⟨by rw [hatt], ?_, ?_, ?_, ?_⟩
  · intro w hw
    rw [hatt] at hw
    rcases hgo.2 w hw with h | h
    · cases h
    · exact h
  all_goals
    simp [download_file, download_loop, hatt, MAX_RETRIES]

/-- C4 witness: the amended behaviour at a concrete cancelled download. -/
theorem c4_cancellation_aborts_attempt_but_is_retried_witness :
    (attempt_download ⟨none, [(true, [7])], none⟩).2.2 = .error .cancelled ∧
    (download_file ⟨none, none, "f/g.iso"⟩
        (fun _ => ⟨none, [(true, [7])], none⟩)).attemptsMade = 3 ∧
    (download_file ⟨none, none, "f/g.iso"⟩
        (fun _ => ⟨none, [(true, [7])], none⟩)).cleanups = 2 ∧
    (download_file ⟨none, none, "f/g.iso"⟩
        (fun _ => ⟨none, [(true, [7])], none⟩)).result = .error (some .cancelled) := by
  have h := c4_cancellation_aborts_attempt_but_is_retried [(true, [7])] none
    ⟨none, none, "f/g.iso"⟩ ⟨(true, [7]), by simp, rfl⟩
  exact ⟨h.1, h.2.2.1, h.2.2.2.1, h.2.2.2.2⟩

/-- C5, failing input: the file is written under the header-derived name
"game.iso", but `_cleanup_partial` targets the URL-derived name
"other.bin"; after a first attempt that fails mid-body and two further
attempts that fail before opening the file, both inter-attempt cleanups ran
and yet the partial file "game.iso" is still present.  In the same scenario
without a Content-Disposition filename, the written and cleaned-up names
coincide and no partial file survives.  Retry bookkeeping is as the claim
states: three attempts, two cleanups, and the final error carries the last
underlying error. -/
theorem c5_cleanup_misses_header_named_partial :
    written_name ⟨none, some "game.iso", "files/other.bin"⟩ = "game.iso" ∧
    cleanup_name ⟨none, some "game.iso", "files/other.bin"⟩ = "other.bin" ∧
    download_file ⟨none, some "game.iso", "files/other.bin"⟩
      (fun i => if i = 1 then ⟨none, [(false, [1])], some (.network "reset")⟩
                else ⟨some (.network "connect"), [], none⟩) =
      ⟨3, 2, ["game.iso"], .error (some (.network "connect"))⟩ ∧
    download_file ⟨none, none, "files/other.bin"⟩
      (fun i => if i = 1 then ⟨none, [(false, [1])], some (.network "reset")⟩
                else ⟨some (.network "connect"), [], none⟩) =
      ⟨3, 2, [], .error (some (.network "connect"))⟩ := by decide

/-- Characterisation of one pipeline run: the trace follows the canonical
stage order; the download stage is reached only after the disk-space check
passed; the install stage only after download and conversion succeeded;
cleanup only on a fully successful run; a failed run reaches neither cleanup
nor the finished emit; an insufficient-space check failure becomes the
run's classified result; and a stage that was entered and failed ends the
trace there — every later stage is skipped (the trace is exactly the
canonical sequence up to the failing stage). -/
theorem run_pipeline_spec (env : WorkerEnv) :
    List.Sublist (run_pipeline env).1 stageOrder ∧
    (Ev.download ∈ (run_pipeline env).1 →
      check_disk_space env.fs env.installDir FALLBACK_SIZE_ESTIMATE = .ok ()) ∧
    (Ev.installStage ∈ (run_pipeline env).1 →
      (∃ nm, env.downloadOutcome = .ok nm) ∧ (∃ d, env.convertOutcome = .ok d)) ∧
    (Ev.cleanup ∈ (run_pipeline env).1 →
      ∃ p, env.installOutcome = .ok p ∧ (run_pipeline env).2 = .ok p) ∧
    (∀ e, (run_pipeline env).2 = .error e →
      Ev.cleanup ∉ (run_pipeline env).1 ∧ Ev.emitFinished ∉ (run_pipeline env).1) ∧
    (∀ p, (run_pipeline env).2 = .ok p → env.installOutcome = .ok p) ∧
    (∀ r a, check_disk_space env.fs env.installDir FALLBACK_SIZE_ESTIMATE =
        .error (.insufficientSpace r a) →
      (run_pipeline env).2 = .error (.insufficientDiskSpace r a)) ∧
    (∀ e, check_disk_space env.fs env.installDir FALLBACK_SIZE_ESTIMATE = .error e →
      (run_pipeline env).1 = [Ev.tempCreate, Ev.spaceCheck]) ∧
    (∀ m, env.downloadOutcome = .error m → Ev.download ∈ (run_pipeline env).1 →
      (run_pipeline env).1 = [Ev.tempCreate, Ev.spaceCheck, Ev.download]) ∧
    (∀ m, env.extractOutcome = .error m → Ev.extractStage ∈ (run_pipeline env).1 →
      (run_pipeline env).1 =
        [Ev.tempCreate, Ev.spaceCheck, Ev.download, Ev.extractStage]) ∧
    (env.findIso = none → Ev.extractStage ∈ (run_pipeline env).1 →
      (run_pipeline env).1 =
        [Ev.tempCreate, Ev.spaceCheck, Ev.download, Ev.extractStage]) ∧
    (∀ ce, env.convertOutcome = .error ce → Ev.convert ∈ (run_pipeline env).1 →
      (run_pipeline env).1 = [Ev.tempCreate, Ev.spaceCheck, Ev.download, Ev.convert] ∨
      (run_pipeline env).1 =
        [Ev.tempCreate, Ev.spaceCheck, Ev.download, Ev.extractStage, Ev.convert]) ∧
    (∀ m, env.installOutcome = .error m → Ev.installStage ∈ (run_pipeline env).1 →
      (run_pipeline env).1 =
        [Ev.tempCreate, Ev.spaceCheck, Ev.download, Ev.convert, Ev.installStage] ∨
      (run_pipeline env).1 =
        [Ev.tempCreate, Ev.spaceCheck, Ev.download, Ev.extractStage, Ev.convert,
         Ev.installStage]) := by
  obtain ⟨fs, idir, dl, ex, fi, cv, ins⟩ := env
  rcases hsc : check_disk_space fs idir FALLBACK_SIZE_ESTIMATE with e | u
  · rcases e with ⟨r, a⟩ | m <;>
      simp only [run_pipeline, hsc] <;>
      exact ⟨by decide, by simp [hsc], by simp, by simp, by simp, by simp, by simp [hsc],
             by simp [hsc], by simp, by simp, by simp, by simp, by simp⟩
  · cases u
    rcases dl with m | nm
    · simp only [run_pipeline, hsc]
      exact ⟨by decide, by simp [hsc], by simp, by simp, by simp, by simp, by simp [hsc],
             by simp [hsc], by simp, by simp, by simp, by simp, by simp⟩
    · cases harc : is_archive nm with
      | false =>
        rcases cv with ce | cd <;> rcases ins with mi | p <;>
          simp only [run_pipeline, pipeline_tail, hsc, harc, Bool.cond_false] <;>
          exact ⟨by decide, by simp [hsc], by simp, by simp, by simp, by simp, by simp [hsc],
                 by simp [hsc], by simp, by simp, by simp, by simp, by simp⟩
      | true =>
        rcases ex with me | ue
        · simp only [run_pipeline, pipeline_tail, hsc, harc, Bool.cond_true]
          exact ⟨by decide, by simp [hsc], by simp, by simp, by simp, by simp, by simp [hsc],
                 by simp [hsc], by simp, by simp, by simp, by simp, by simp⟩
        · rcases fi with _ | iso
          · simp only [run_pipeline, pipeline_tail, hsc, harc, Bool.cond_true]
            exact ⟨by decide, by simp [hsc], by simp, by simp, by simp, by simp, by simp [hsc],
                   by simp [hsc], by simp, by simp, by simp, by simp, by simp⟩
          · rcases cv with ce | cd <;> rcases ins with mi | p <;>
              simp only [run_pipeline, pipeline_tail, hsc, harc, Bool.cond_true] <;>
              exact ⟨by decide, by simp [hsc], by simp, by simp, by simp, by simp, by simp [hsc],
                     by simp [hsc], by simp, by simp, by simp, by simp, by simp⟩

/-- C3: within one pipeline run, the recorded stage events follow the strict
order SpaceCheck, Download, optional Extract, Convert, Install, Cleanup;
when the disk-space check raises insufficient space the run fails with that
classified error before the download stage issues any network request; and
the install stage is reached only after both the download and the
conversion returned successfully. -/
theorem c3_pipeline_stage_order (env : WorkerEnv) :
    List.Sublist (run_pipeline env).1 stageOrder ∧
    (∀ r a, check_disk_space env.fs env.installDir FALLBACK_SIZE_ESTIMATE =
        .error (.insufficientSpace r a) →
      Ev.download ∉ (run_pipeline env).1 ∧
      (run_pipeline env).2 = .error (.insufficientDiskSpace r a)) ∧
    (Ev.installStage ∈ (run_pipeline env).1 →
      (∃ nm, env.downloadOutcome = .ok nm) ∧ (∃ d, env.convertOutcome = .ok d)) := by
  obtain ⟨hsub, hdlok, hinst, -, -, -, hspace, -, -, -, -, -, -⟩ := run_pipeline_spec env
  refine ⟨hsub, ?_, hinst⟩
  intro r a hins
  refine ⟨?_, hspace r a hins⟩
  intro hdl
  have hok := hdlok hdl
  rw [hins] at hok
  cases hok

/-- C3 witness: with 5 bytes free the run stops at the space check — no
download event — and reports the insufficient-space error. -/
theorem c3_pipeline_stage_order_witness :
    Ev.download ∉ (run_pipeline
      ⟨⟨fun _ => true, fun _ => some 5⟩, ["games"], .ok "g.iso", .ok (),
       some "disc.iso", .ok "out", .ok ["games", "G"]⟩).1 ∧
    (run_pipeline
      ⟨⟨fun _ => true, fun _ => some 5⟩, ["games"], .ok "g.iso", .ok (),
       some "disc.iso", .ok "out", .ok ["games", "G"]⟩).2 =
      .error (.insufficientDiskSpace (FALLBACK_SIZE_ESTIMATE + DISK_SAFETY_BUFFER_BYTES) 5) := by
  have h := (c3_pipeline_stage_order
    ⟨⟨fun _ => true, fun _ => some 5⟩, ["games"], .ok "g.iso", .ok (),
     some "disc.iso", .ok "out", .ok ["games", "G"]⟩).2.1
    (FALLBACK_SIZE_ESTIMATE + DISK_SAFETY_BUFFER_BYTES) 5 (by decide)
  exact h

/-- C8: when any stage of the pipeline fails, the remaining stages are
skipped — a stage that was entered and failed ends the trace there, so no
later stage event occurs — cleanup of the temporary directory is never
invoked and the finished emit is never reached, and the worker surfaces
exactly one classified user-facing error; cleanup is reached only on a run
whose install succeeded, and the worker always emits exactly one
notification. -/
theorem c8_failure_short_circuits (env : WorkerEnv) :
    (∀ e, (run_pipeline env).2 = .error e →
      Ev.cleanup ∉ (run_pipeline env).1 ∧
      Ev.emitFinished ∉ (run_pipeline env).1 ∧
      (worker_run env).2 = [Emit.errorEmit (classify e)]) ∧
    (∀ e, check_disk_space env.fs env.installDir FALLBACK_SIZE_ESTIMATE = .error e →
      (run_pipeline env).1 = [Ev.tempCreate, Ev.spaceCheck]) ∧
    (∀ m, env.downloadOutcome = .error m → Ev.download ∈ (run_pipeline env).1 →
      (run_pipeline env).1 = [Ev.tempCreate, Ev.spaceCheck, Ev.download]) ∧
    (∀ m, env.extractOutcome = .error m → Ev.extractStage ∈ (run_pipeline env).1 →
      (run_pipeline env).1 =
        [Ev.tempCreate, Ev.spaceCheck, Ev.download, Ev.extractStage]) ∧
    (env.findIso = none → Ev.extractStage ∈ (run_pipeline env).1 →
      (run_pipeline env).1 =
        [Ev.tempCreate, Ev.spaceCheck, Ev.download, Ev.extractStage]) ∧
    (∀ ce, env.convertOutcome = .error ce → Ev.convert ∈ (run_pipeline env).1 →
      (run_pipeline env).1 = [Ev.tempCreate, Ev.spaceCheck, Ev.download, Ev.convert] ∨
      (run_pipeline env).1 =
        [Ev.tempCreate, Ev.spaceCheck, Ev.download, Ev.extractStage, Ev.convert]) ∧
    (∀ m, env.installOutcome = .error m → Ev.installStage ∈ (run_pipeline env).1 →
      (run_pipeline env).1 =
        [Ev.tempCreate, Ev.spaceCheck, Ev.download, Ev.convert, Ev.installStage] ∨
      (run_pipeline env).1 =
        [Ev.tempCreate, Ev.spaceCheck, Ev.download, Ev.extractStage, Ev.convert,
         Ev.installStage]) ∧
    (Ev.cleanup ∈ (run_pipeline env).1 →
      ∃ p, env.installOutcome = .ok p ∧ (run_pipeline env).2 = .ok p ∧
        (worker_run env).2 = [Emit.finishedEmit p]) ∧
    (worker_run env).2.length = 1 := by
  obtain ⟨-, -, -, hclean, herr, -, -, htr0, htrdl, htrex, htrfi, htrcv, htrins⟩ :=
    run_pipeline_spec env
  refine ⟨?_, htr0, htrdl, htrex, htrfi, htrcv, htrins, ?_, ?_⟩
  · intro e he
    have hne := herr e he
    refine ⟨hne.1, hne.2, ?_⟩
    rcases hrp : run_pipeline env with ⟨tr, res⟩
    rw [hrp] at he
    simp only at he
    subst he
    simp [worker_run, hrp]
  · intro hcl
    rcases hclean hcl with ⟨p, hip, hres⟩
    refine ⟨p, hip, hres, ?_⟩
    rcases hrp : run_pipeline env with ⟨tr, res⟩
    rw [hrp] at hres
    simp only at hres
    subst hres
    simp [worker_run, hrp]
  · rcases hrp : run_pipeline env with ⟨tr, res⟩
    rcases res with e | p <;> simp [worker_run, hrp]

/-- C8 witness: a run whose conversion step fails reaches no cleanup, keeps
the temp directory, and surfaces exactly the one classified conversion
error; a run whose download step fails stops with the trace ending at the
download stage — extraction, conversion and install are all skipped. -/
theorem c8_failure_short_circuits_witness :
    Ev.cleanup ∉ (run_pipeline
      ⟨⟨fun _ => true, fun _ => some (FALLBACK_SIZE_ESTIMATE + DISK_SAFETY_BUFFER_BYTES)⟩,
       ["games"], .ok "g.iso", .ok (), some "disc.iso",
       .error (.timeoutFailure "exiso.exe"), .ok ["games", "G"]⟩).1 ∧
    (worker_run
      ⟨⟨fun _ => true, fun _ => some (FALLBACK_SIZE_ESTIMATE + DISK_SAFETY_BUFFER_BYTES)⟩,
       ["games"], .ok "g.iso", .ok (), some "disc.iso",
       .error (.timeoutFailure "exiso.exe"), .ok ["games", "G"]⟩).2 =
      [Emit.errorEmit "Conversion failed"] ∧
    (run_pipeline
      ⟨⟨fun _ => true, fun _ => some (FALLBACK_SIZE_ESTIMATE + DISK_SAFETY_BUFFER_BYTES)⟩,
       ["games"], .error "connection reset", .ok (), some "disc.iso",
       .ok "out", .ok ["games", "G"]⟩).1 =
      [Ev.tempCreate, Ev.spaceCheck, Ev.download] := by
  have h := (c8_failure_short_circuits
    ⟨⟨fun _ => true, fun _ => some (FALLBACK_SIZE_ESTIMATE + DISK_SAFETY_BUFFER_BYTES)⟩,
     ["games"], .ok "g.iso", .ok (), some "disc.iso",
     .error (.timeoutFailure "exiso.exe"), .ok ["games", "G"]⟩).1
    (.conversionFailure (.timeoutFailure "exiso.exe")) (by decide)
  have hdl := (c8_failure_short_circuits
    ⟨⟨fun _ => true, fun _ => some (FALLBACK_SIZE_ESTIMATE + DISK_SAFETY_BUFFER_BYTES)⟩,
     ["games"], .error "connection reset", .ok (), some "disc.iso",
     .ok "out", .ok ["games", "G"]⟩).2.2.1
    "connection reset" rfl (by decide)
  exact ⟨h.1, h.2.2, hdl⟩

end RomTool
